import Mathlib

/-!
Verification of the core logic of `udp_cfg_gui.py` (network camera RTSP
configuration tool).

The development shallowly embeds the four subsystems of the program:

* the UDP command exchange `udp_exchange` (host validation, strict ASCII
  encoding, one datagram out, one reply in, timeout, best-effort decode);
* the video streaming worker `VideoStreamWorker.run` / `stop` (connect,
  read loop, per-second statistics, cancellation flag, source release);
* the aspect-ratio placement `VideoCanvas._calculate_aspect_ratio_rect`;
* the main-window session handoff `MainWindow.on_stream_toggle`,
  `_start_new_stream` and `_abandon_worker` (signal connect/disconnect).

Machine reals (`time.time()`, fps arithmetic) are modelled over `ℚ`;
Python byte strings over `List ℕ`; the concurrently-set cancellation
flag as a monotone boolean schedule indexed by the number of flag reads
the loop has performed.
-/

/-! ### UDP command channel: `udp_exchange` (source lines 94-107) -/

/-- Result of `payload.encode("ascii", errors="strict")`: `none` models the
`UnicodeEncodeError` raised on the first character outside 7-bit ASCII. -/
def asciiEncode (s : String) : Option (List ℕ) :=
  if s.toList.all (fun c => c.toNat < 128) then
    some (s.toList.map (fun c => c.toNat))
  else
    none

/-- `resp.decode("ascii", errors="replace")`: bytes above 0x7F become the
replacement character U+FFFD. -/
def asciiDecodeReplace (bs : List ℕ) : List Char :=
  bs.map (fun b => if b < 128 then Char.ofNat b else Char.ofNat 65533)

/-- Whitespace for Python `str.strip()` restricted to the ASCII range. -/
def pyIsSpace (c : Char) : Bool :=
  c = ' ' || c = '\t' || c = '\n' || c = '\r' || c.toNat = 11 || c.toNat = 12

/-- Python `str.strip()` on a character list. -/
def pyStrip (cs : List Char) : List Char :=
  ((cs.dropWhile pyIsSpace).reverse.dropWhile pyIsSpace).reverse

/-- The outcome of one `udp_exchange` call, as seen by `UdpWorker.run`
(which catches every exception and reports it via the `error` signal). -/
inductive UdpOutcome where
  | reply (text : List Char)
  | valueErrorEmptyHost
  | unicodeEncodeError
  | timeoutExpired (ms : ℕ)
deriving DecidableEq

/-- Outcome of an exchange plus the observable transport side effects:
whether a UDP socket was created and which `(port, bytes)` datagrams were
handed to `sendto`. -/
structure UdpTraceResult where
  outcome : UdpOutcome
  socketCreated : Bool
  datagramsSent : List (ℕ × List ℕ)
deriving DecidableEq

/-- `udp_exchange(host, port, payload, timeout_ms)`.  The network is
injected as `transport`: given the `(port, bytes)` datagram it either
returns the reply bytes or `none` for `socket.timeout`.  The function
checks `host` non-empty, encodes the payload as strict ASCII, and only
then creates the socket and sends; the reply is decoded with replacement
and stripped.  The `port` value is passed through to `sendto` untouched:
the source performs no range check on it. -/
def udp_exchange (host : String) (port : ℕ) (payload : String) (timeoutMs : ℕ)
    (transport : ℕ × List ℕ → Option (List ℕ)) : UdpTraceResult :=
  if host = "" then
    ⟨.valueErrorEmptyHost, false, []⟩
  else
    match asciiEncode payload with
    | none => ⟨.unicodeEncodeError, false, []⟩
    | some data =>
      match transport (port, data) with
      | none => ⟨.timeoutExpired timeoutMs, true, [(port, data)]⟩
      | some resp => ⟨.reply (pyStrip (asciiDecodeReplace resp)), true, [(port, data)]⟩

/-! ### Streaming worker: `VideoStreamWorker` (source lines 113-199) -/

/-- One `cap.read()` interaction: a decoded frame carrying the
`time.time()` value observed right after the read together with its pixel
dimensions and whether the subsequent `cv2.cvtColor` conversion succeeds,
an EOF (`ret == False`), or an exception escaping the read. -/
inductive ReadResult where
  | frame (t : ℚ) (w h : ℕ) (decodeOk : Bool)
  | eof
  | exn (msg : String)
deriving DecidableEq

/-- The injected `cv2.VideoCapture` behaviour: whether the constructor
succeeds, whether `isOpened()` holds, and the successive read results. -/
structure VideoSource where
  ctorOk : Bool
  openOk : Bool
  reads : List ReadResult
deriving DecidableEq

/-- Events observable from the worker: the three Qt signals plus the
`finished` signal Qt emits when `run` returns (the Ended event). -/
inductive SEvent where
  | log (s : String)
  | stats (s : String)
  | frame (w h : ℕ)
  | ended
deriving DecidableEq

/-- `true` for the Frame and Stats renderer events, `false` for Log/Ended. -/
def isFrameOrStats : SEvent → Bool
  | .frame _ _ => true
  | .stats _ => true
  | _ => false

/-- `true` exactly for the Ended event. -/
def isEndedEvent : SEvent → Bool
  | .ended => true
  | _ => false

/-- `c :: cs` begins with `needle`. -/
def charsLeadWith : List Char → List Char → Bool
  | [], _ => true
  | _ :: _, [] => false
  | a :: as, b :: bs => a = b && charsLeadWith as bs

/-- `needle` occurs somewhere inside the haystack. -/
def charsContain (needle : List Char) : List Char → Bool
  | [] => charsLeadWith needle []
  | b :: bs => charsLeadWith needle (b :: bs) || charsContain needle bs

/-- Does a worker event carry a log line mentioning a retry? -/
def mentionsRetry : SEvent → Bool
  | .log s => charsContain "retrying".toList s.toList
  | _ => false

/-- `true` exactly for a successful read (`ret == True`). -/
def isFrameRead : ReadResult → Bool
  | .frame _ _ _ _ => true
  | _ => false

/-- The cancellation flag `self.running` as observed by the `i`-th flag
read of the worker.  `stop()` flips the flag once, from `True` to
`False`; `stopAfter = some n` means the first `n` reads see `True` and
every later read sees `False`, while `none` means `stop()` is never
called during the run. -/
def flagVal (stopAfter : Option ℕ) (i : ℕ) : Bool :=
  match stopAfter with
  | none => true
  | some n => i < n

/-- The per-window statistics state of the read loop: `frame_counter` and
`last_time` (source lines 150-151, 164-179). -/
structure StatsWindow where
  frameCounter : ℕ
  lastTime : ℚ
deriving DecidableEq

/-- Python `round` ties-to-even of a rational to an integer. -/
def roundHalfEven (q : ℚ) : ℤ :=
  let f := ⌊q⌋
  let r := q - (f : ℚ)
  if r < 1/2 then f
  else if (1 : ℚ)/2 < r then f + 1
  else if f % 2 = 0 then f else f + 1

/-- Python `f"{x:.1f}"`: one decimal digit, ties to even. -/
def pyFormat1 (q : ℚ) : String :=
  let n := roundHalfEven (q * 10)
  let m := n.natAbs
  let s := toString (m / 10) ++ "." ++ toString (m % 10)
  if n < 0 then "-" ++ s else s

/-- The OSD text `f"RES: {w}x{h} | FPS: {real_fps:.1f}"` (source line 174). -/
def statsText (w h : ℕ) (fps : ℚ) : String :=
  s!"RES: {w}x{h} | FPS: " ++ pyFormat1 fps

/-- Source lines 164-179 for one successfully read frame: increment the
frame counter, and if at least one second elapsed since `last_time`, emit
the stats text for `frame_counter / elapsed` and reset the window. -/
def statsStep (st : StatsWindow) (currTime : ℚ) (w h : ℕ) :
    StatsWindow × Option String :=
  let fc := st.frameCounter + 1
  let elapsed := currTime - st.lastTime
  if 1 ≤ elapsed then
    (⟨0, currTime⟩, some (statsText w h ((fc : ℚ) / elapsed)))
  else
    (⟨fc, st.lastTime⟩, none)

/-- Result of one worker run: the emitted events, each tagged with how
many flag reads had completed when it was emitted; whether the capture
handle was released; and whether `run` returned (`completed = false`
means the supplied read list was exhausted while the loop still wanted to
continue, i.e. the run is still blocked inside `cap.read()`). -/
structure RunResult where
  events : List (ℕ × SEvent)
  released : Bool
  completed : Bool
deriving DecidableEq

/-- The read loop of `VideoStreamWorker.run` (source lines 153-189).
`k` counts the flag reads performed so far.  Each iteration checks the
flag (`while self.running`), reads, checks the flag again (`if not
self.running: break`), on EOF logs and breaks, and on a frame runs the
statistics step and then — guarded by a third flag read and by the
conversion succeeding — emits the frame.  Exceptions from the read fall
to the outer handler, which logs only if the flag still reads true.
Returns the accumulated events, the final flag-read count, and whether
the loop terminated (rather than exhausting the supplied reads). -/
def runLoop (wid : ℕ) (sa : Option ℕ) :
    List ReadResult → ℕ → ℕ → ℚ → List (ℕ × SEvent) →
    List (ℕ × SEvent) × ℕ × Bool
  | [], k, _, _, acc =>
    if flagVal sa k = false then (acc, k + 1, true) else (acc, k + 1, false)
  | r :: rest, k, fc, lastT, acc =>
    if flagVal sa k = false then (acc, k + 1, true)
    else
      match r with
      | .exn msg =>
        if flagVal sa (k + 1) then
          (acc ++ [(k + 2, .log s!"[Error] Worker({wid}) Err: {msg}")], k + 2, true)
        else
          (acc, k + 2, true)
      | .eof =>
        if flagVal sa (k + 1) = false then (acc, k + 2, true)
        else (acc ++ [(k + 2, .log s!"[Warn] Worker({wid}) EOF.")], k + 2, true)
      | .frame t w h decodeOk =>
        if flagVal sa (k + 1) = false then (acc, k + 2, true)
        else
          let sw := statsStep ⟨fc, lastT⟩ t w h
          let acc1 :=
            match sw.2 with
            | some s => acc ++ [(k + 2, .stats s)]
            | none => acc
          let acc2 :=
            if flagVal sa (k + 2) = true ∧ decodeOk = true then
              acc1 ++ [(k + 3, .frame w h)]
            else acc1
          runLoop wid sa rest (k + 3) sw.1.frameCounter sw.1.lastTime acc2

/-- `VideoStreamWorker.run` (source lines 125-196).  Emits the connecting
log, constructs the capture (a constructor failure reaches the outer
handler and is logged only if still running), honours the early
cancellation check, handles `isOpened()` failure, then runs the read loop
starting a statistics window at wall-clock `t0` (`last_time =
time.time()`).  The `finally` block releases the capture whenever the
constructor produced one and `run` actually returns; Qt emits the
`finished` signal (the Ended event) when `run` returns. -/
def videoRun (wid : ℕ) (src : VideoSource) (t0 : ℚ) (sa : Option ℕ) : RunResult :=
  let acc0 := [(0, SEvent.log s!"[System] Worker({wid}) Connecting...")]
  if src.ctorOk = false then
    let acc1 :=
      if flagVal sa 0 then
        acc0 ++ [(1, SEvent.log s!"[Error] Worker({wid}) Err: VideoCapture")]
      else acc0
    ⟨acc1 ++ [(1, SEvent.ended)], false, true⟩
  else if flagVal sa 0 = false then
    ⟨acc0 ++ [(1, SEvent.ended)], true, true⟩
  else if src.openOk = false then
    ⟨acc0 ++ [(1, SEvent.log s!"[Error] Worker({wid}) Connect Timeout."),
              (1, SEvent.ended)], true, true⟩
  else
    let acc1 := acc0 ++ [(1, SEvent.log s!"[System] Worker({wid}) Decoding...")]
    let res := runLoop wid sa src.reads 1 0 t0 acc1
    ⟨if res.2.2 then res.1 ++ [(res.2.1, SEvent.ended)] else res.1,
     res.2.2, res.2.2⟩

/-- The mutable state of a `VideoStreamWorker` object relevant to
cancellation: its URL and the `running` flag set in `__init__`. -/
structure VideoStreamWorkerState where
  url : String
  running : Bool
deriving DecidableEq

/-- `VideoStreamWorker.__init__` sets `self.running = True`. -/
def workerInit (url : String) : VideoStreamWorkerState :=
  ⟨url, true⟩

/-- `VideoStreamWorker.stop` (source lines 198-199): `self.running = False`. -/
def workerStop (w : VideoStreamWorkerState) : VideoStreamWorkerState :=
  { w with running := false }

/-! ### Aspect-ratio placement: `_calculate_aspect_ratio_rect`
(source lines 277-291) -/

/-- The `QRect` produced by the canvas. -/
structure PyRect where
  x : ℤ
  y : ℤ
  width : ℤ
  height : ℤ
deriving DecidableEq

/-- `VideoCanvas._calculate_aspect_ratio_rect(img_size, widget_size)`.
`QSize.isEmpty` holds when a dimension is `≤ 0`, giving the zero rect
without any division.  Otherwise the source computes the two ratios, fits
the full widget height when the widget is relatively wider and the full
widget width otherwise, truncates the scaled dimension with `int()`
(equal to the floor for these non-negative values), and centres with
integer floor division by 2. -/
def calculateAspectRatioRect (imgW imgH vW vH : ℤ) : PyRect :=
  if imgW ≤ 0 ∨ imgH ≤ 0 ∨ vW ≤ 0 ∨ vH ≤ 0 then ⟨0, 0, 0, 0⟩
  else
    let imgRatio : ℚ := (imgW : ℚ) / (imgH : ℚ)
    let widgetRatio : ℚ := (vW : ℚ) / (vH : ℚ)
    if imgRatio < widgetRatio then
      let nh : ℤ := vH
      let nw : ℤ := ⌊(nh : ℚ) * imgRatio⌋
      ⟨⌊((vW - nw : ℤ) : ℚ) / 2⌋, ⌊((vH - nh : ℤ) : ℚ) / 2⌋, nw, nh⟩
    else
      let nw : ℤ := vW
      let nh : ℤ := ⌊(nw : ℚ) / imgRatio⌋
      ⟨⌊((vW - nw : ℤ) : ℚ) / 2⌋, ⌊((vH - nh : ℤ) : ℚ) / 2⌋, nw, nh⟩

/-! ### Session manager wiring: `on_stream_toggle`, `_start_new_stream`,
`_abandon_worker` (source lines 484-524) -/

/-- The signal wiring of one worker object: the `running` flag plus
whether its `frame_received`, `stats_received` and `log_message` signals
currently have connections into the main window. -/
structure WorkerConn where
  running : Bool
  frameConnected : Bool
  statsConnected : Bool
  logConnected : Bool
deriving DecidableEq

/-- `signal.disconnect()` with no arguments: removes every connection, or
raises (`none`) when the signal had none. -/
def signalDisconnectAll (connected : Bool) : Option Bool :=
  if connected then some false else none

/-- `MainWindow._abandon_worker` (source lines 515-524): `worker.stop()`,
then inside a `try`/`except pass` disconnect the frame signal and then
the stats signal — if the frame disconnect raises, the stats disconnect
is skipped; the log and finished connections are never touched. -/
def abandonWorkerConn (w : WorkerConn) : WorkerConn :=
  let w1 := { w with running := false }
  match signalDisconnectAll w1.frameConnected with
  | none => w1
  | some f =>
    match signalDisconnectAll w1.statsConnected with
    | none => { w1 with frameConnected := f }
    | some s => { w1 with frameConnected := f, statsConnected := s }

/-- `MainWindow._start_new_stream` constructs a fresh worker
(`running = True`) and connects all three signals (plus `finished`),
giving a fully connected worker. -/
def startNewStreamConn : WorkerConn :=
  ⟨true, true, true, true⟩

/-- Is an event emitted by a worker in wiring state `w` delivered to the
renderer (`VideoCanvas.set_frame` / `set_stats`)?  Delivery requires the
corresponding signal connection to exist at emission time. -/
def rendererDelivers (w : WorkerConn) (e : SEvent) : Bool :=
  match e with
  | .frame _ _ => w.frameConnected
  | .stats _ => w.statsConnected
  | _ => false

/-- Is an event emitted by a worker in wiring state `w` delivered to the
log view (`MainWindow._append_log`)? -/
def logDelivers (w : WorkerConn) (e : SEvent) : Bool :=
  match e with
  | .log _ => w.logConnected
  | _ => false

/-- The primitive manager actions of the start/replace path, in program
order. -/
inductive MgrAction where
  | setStopButtonText
  | logDetach (wid : ℕ)
  | stopWorker (wid : ℕ)
  | disconnectFrameSignal (wid : ℕ)
  | disconnectStatsSignal (wid : ℕ)
  | constructWorker (wid : ℕ)
  | connectFrameSignal (wid : ℕ)
  | connectStatsSignal (wid : ℕ)
  | connectLogSignal (wid : ℕ)
  | connectFinishedSignal (wid : ℕ)
  | startWorker (wid : ℕ)
deriving DecidableEq

/-- The action sequence of `_abandon_worker` on an active (fully
connected) worker `a`: log the detachment, stop it, disconnect its frame
and stats signals. -/
def abandonTrace (a : ℕ) : List MgrAction :=
  [.logDetach a, .stopWorker a, .disconnectFrameSignal a, .disconnectStatsSignal a]

/-- The action sequence of `_start_new_stream` for the new worker `b`. -/
def startNewStreamTrace (b : ℕ) : List MgrAction :=
  [.constructWorker b, .connectFrameSignal b, .connectStatsSignal b,
   .connectLogSignal b, .connectFinishedSignal b, .startWorker b]

/-- `MainWindow.on_stream_toggle(checked=True)` while worker `a` is
active (source lines 487-496): set the button text, abandon `a`, then
start the new stream `b`. -/
def onStreamToggleStartTrace (a b : ℕ) : List MgrAction :=
  [.setStopButtonText] ++ abandonTrace a ++ startNewStreamTrace b

/-- Actions that detach the old worker `a`. -/
def isDetachAction (a : ℕ) : MgrAction → Bool
  | .stopWorker x => x = a
  | .disconnectFrameSignal x => x = a
  | .disconnectStatsSignal x => x = a
  | _ => false

/-- Actions that construct, subscribe or start the new worker `b`. -/
def isNewSessionAction (b : ℕ) : MgrAction → Bool
  | .constructWorker x => x = b
  | .connectFrameSignal x => x = b
  | .connectStatsSignal x => x = b
  | .connectLogSignal x => x = b
  | .connectFinishedSignal x => x = b
  | .startWorker x => x = b
  | _ => false

/-! ### Theorems -/

/-- C1 counterexample: `udp_exchange` with `port = 70000` (valid host and
payload) does not fail validation: it creates a socket and hands the
datagram, port included, to `sendto`, contradicting the claim that a port
outside `1..65535` yields an `InvalidArgument` failure without any
network I/O. -/
theorem c1_counterexample :
    (udp_exchange "192.168.144.123" 70000 "GET" 1200 (fun _ => none)).socketCreated = true ∧
    (udp_exchange "192.168.144.123" 70000 "GET" 1200 (fun _ => none)).datagramsSent =
      [(70000, [71, 69, 84])] ∧
    (udp_exchange "192.168.144.123" 70000 "GET" 1200 (fun _ => none)).outcome ≠
      UdpOutcome.valueErrorEmptyHost := by
  refine ⟨?_, ?_, ?_⟩ <;> with_unfolding_all decide

/-- C1 (amended): before any network I/O `udp_exchange` validates only
that the host is non-empty — an empty host yields the invalid-argument
failure with no socket created and nothing sent — while the port is not
validated at all: for every port value (70000 included), a non-empty host
and ASCII payload reach socket creation. -/
theorem c1_host_only_validation :
    (∀ (port : ℕ) (payload : String) (timeoutMs : ℕ)
        (transport : ℕ × List ℕ → Option (List ℕ)),
        udp_exchange "" port payload timeoutMs transport =
          ⟨.valueErrorEmptyHost, false, []⟩) ∧
    (∀ (host : String) (port : ℕ) (payload : String) (timeoutMs : ℕ)
        (transport : ℕ × List ℕ → Option (List ℕ)),
        host ≠ "" → payload.toList.all (fun c => c.toNat < 128) = true →
        (udp_exchange host port payload timeoutMs transport).socketCreated = true) := by
  constructor
  · intro port payload timeoutMs transport
    simp [udp_exchange]
  · intro host port payload timeoutMs transport hhost hascii
    have henc : asciiEncode payload = some (payload.toList.map (fun c => c.toNat)) := by
      unfold asciiEncode
      rw [if_pos hascii]
    simp only [udp_exchange, if_neg hhost, henc]
    cases transport (port, payload.toList.map (fun c => c.toNat)) <;> rfl

/-- C1 witness: the amended theorem applied to the concrete request of
the counterexample. -/
theorem c1_witness :
    ("192.168.144.123" ≠ "") ∧
    ("GET".toList.all (fun c => c.toNat < 128) = true) ∧
    (udp_exchange "192.168.144.123" 70000 "GET" 1200 (fun _ => none)).socketCreated = true :=
  ⟨by decide, by decide,
    c1_host_only_validation.2 "192.168.144.123" 70000 "GET" 1200 (fun _ => none)
      (by decide) (by decide)⟩

/-- C8 counterexample: a request whose payload is non-ASCII but whose
host is empty yields the empty-host `ValueError`, not the encoding
failure, because the host check precedes encoding. -/
theorem c8_counterexample :
    ("é".toList.all (fun c => c.toNat < 128) = false) ∧
    (udp_exchange "" 5600 "é" 1200 (fun _ => none)).outcome =
      UdpOutcome.valueErrorEmptyHost ∧
    (udp_exchange "" 5600 "é" 1200 (fun _ => none)).outcome ≠
      UdpOutcome.unicodeEncodeError := by
  refine ⟨?_, ?_, ?_⟩ <;> decide

/-- C8 (amended): for every request with a non-empty host whose payload
contains a character outside 7-bit ASCII, the exchange fails with the
strict-encoding error before any socket is created or any datagram is
sent (with an empty host the empty-host failure takes precedence). -/
theorem c8_encoding_error_before_network :
    ∀ (host : String) (port : ℕ) (payload : String) (timeoutMs : ℕ)
      (transport : ℕ × List ℕ → Option (List ℕ)),
      host ≠ "" → payload.toList.any (fun c => 128 ≤ c.toNat) = true →
      udp_exchange host port payload timeoutMs transport =
        ⟨.unicodeEncodeError, false, []⟩ := by
  intro host port payload timeoutMs transport hhost hnonascii
  have henc : asciiEncode payload = none := by
    simp only [List.any_eq_true, decide_eq_true_eq] at hnonascii
    obtain ⟨c, hc, h128⟩ := hnonascii
    have hall : ¬ payload.toList.all (fun c => c.toNat < 128) = true := by
      intro hall
      simp only [List.all_eq_true, decide_eq_true_eq] at hall
      exact absurd (hall c hc) (by omega)
    unfold asciiEncode
    rw [if_neg hall]
  simp [udp_exchange, if_neg hhost, henc]

/-- C8 witness: the amended theorem applied to a concrete non-ASCII
request. -/
theorem c8_witness :
    ("example.com" ≠ "") ∧
    ("é".toList.any (fun c => 128 ≤ c.toNat) = true) ∧
    udp_exchange "example.com" 5600 "é" 1200 (fun _ => none) =
      ⟨.unicodeEncodeError, false, []⟩ :=
  ⟨by decide, by decide,
    c8_encoding_error_before_network "example.com" 5600 "é" 1200 (fun _ => none)
      (by decide) (by decide)⟩

/-- C2 counterexample: a worker whose source connects and then fails a
read (with further data still available) logs EOF and terminates — the
run completes, Ended is emitted, no retry log ever appears, no backoff or
reopen happens, and the remaining data is never read — contradicting the
claimed retry-forever-without-Ended behaviour. -/
theorem c2_counterexample :
    (videoRun 5 ⟨true, true, [.eof, .frame 1 640 480 true]⟩ 0 none).events =
      [(0, .log "[System] Worker(5) Connecting..."),
       (1, .log "[System] Worker(5) Decoding..."),
       (3, .log "[Warn] Worker(5) EOF."), (3, .ended)] ∧
    ((videoRun 5 ⟨true, true, [.eof, .frame 1 640 480 true]⟩ 0 none).events.any
      (fun p => mentionsRetry p.2) = false) ∧
    ((videoRun 5 ⟨true, true, [.eof, .frame 1 640 480 true]⟩ 0 none).events.any
      (fun p => isFrameOrStats p.2) = false) ∧
    ((videoRun 5 ⟨true, true, [.eof, .frame 1 640 480 true]⟩ 0 none).events.any
      (fun p => isEndedEvent p.2) = true) ∧
    (videoRun 5 ⟨true, true, [.eof, .frame 1 640 480 true]⟩ 0 none).completed = true := by
  refine ⟨?_, ?_, ?_, ?_, ?_⟩ <;> with_unfolding_all decide

/-- A failed read at the head of the remaining reads, with the flag never
cleared, logs EOF and terminates the loop at once. -/
theorem runLoop_eof_head (wid : ℕ) (rest : List ReadResult) (k fc : ℕ)
    (lastT : ℚ) (acc : List (ℕ × SEvent)) :
    runLoop wid none (ReadResult.eof :: rest) k fc lastT acc =
      (acc ++ [(k + 2, SEvent.log s!"[Warn] Worker({wid}) EOF.")], k + 2, true) :=
  rfl

/-- One loop iteration over a successful read, while both of its flag
checks still read true: run the statistics step, append the possible
stats and frame events, and continue on the remaining reads. -/
theorem runLoop_cons_frame (wid : ℕ) (sa : Option ℕ) (t : ℚ) (w h : ℕ)
    (d : Bool) (l : List ReadResult) (k fc : ℕ) (lastT : ℚ)
    (acc : List (ℕ × SEvent))
    (hk : flagVal sa k = true) (hk1 : flagVal sa (k + 1) = true) :
    runLoop wid sa (ReadResult.frame t w h d :: l) k fc lastT acc =
      runLoop wid sa l (k + 3) (statsStep ⟨fc, lastT⟩ t w h).1.frameCounter
        (statsStep ⟨fc, lastT⟩ t w h).1.lastTime
        (acc ++
          ((match (statsStep ⟨fc, lastT⟩ t w h).2 with
            | some s => [(k + 2, SEvent.stats s)]
            | none => []) ++
           (if flagVal sa (k + 2) = true ∧ d = true then
             [(k + 3, SEvent.frame w h)]
            else []))) := by
  conv_lhs => unfold runLoop
  cases hsw : (statsStep ⟨fc, lastT⟩ t w h).2 <;>
    by_cases hc : flagVal sa (k + 2) = true ∧ d = true <;>
      simp [hsw, hc, hk, hk1]

/-- With the flag never cleared, running the loop over any number of
successful reads followed by a failed read emits only stats and frame
events before the single EOF log, terminates, and never consumes
whatever reads would still follow the failed one. -/
theorem runLoop_frames_then_eof (wid : ℕ) :
    ∀ (pre : List ReadResult), pre.all isFrameRead = true →
    ∀ (rest : List ReadResult) (k fc : ℕ) (lastT : ℚ) (acc : List (ℕ × SEvent)),
      ∃ (evs : List (ℕ × SEvent)) (k2 : ℕ),
        runLoop wid none (pre ++ ReadResult.eof :: rest) k fc lastT acc =
          (acc ++ evs ++ [(k2, SEvent.log s!"[Warn] Worker({wid}) EOF.")], k2, true) ∧
        runLoop wid none (pre ++ [ReadResult.eof]) k fc lastT acc =
          (acc ++ evs ++ [(k2, SEvent.log s!"[Warn] Worker({wid}) EOF.")], k2, true) ∧
        ∀ p ∈ evs, (∃ s, p.2 = SEvent.stats s) ∨ ∃ pw ph, p.2 = SEvent.frame pw ph := by
  intro pre
  induction pre with
  | nil =>
    intro _ rest k fc lastT acc
    refine ⟨[], k + 2, ?_, ?_, by simp⟩
    · rw [List.append_nil]
      exact runLoop_eof_head wid rest k fc lastT acc
    · rw [List.append_nil]
      exact runLoop_eof_head wid [] k fc lastT acc
  | cons r pre' ih =>
    intro hall rest k fc lastT acc
    simp only [List.all_cons, Bool.and_eq_true] at hall
    obtain ⟨hr, hall'⟩ := hall
    cases r with
    | eof => simp [isFrameRead] at hr
    | exn m => simp [isFrameRead] at hr
    | frame t w h d =>
      obtain ⟨evs, k2, h1, h2, h3⟩ :=
        ih hall' rest (k + 3) (statsStep ⟨fc, lastT⟩ t w h).1.frameCounter
          (statsStep ⟨fc, lastT⟩ t w h).1.lastTime
          (acc ++
            ((match (statsStep ⟨fc, lastT⟩ t w h).2 with
              | some s => [(k + 2, SEvent.stats s)]
              | none => []) ++
             (if flagVal none (k + 2) = true ∧ d = true then
               [(k + 3, SEvent.frame w h)]
              else [])))
      refine ⟨((match (statsStep ⟨fc, lastT⟩ t w h).2 with
              | some s => [(k + 2, SEvent.stats s)]
              | none => []) ++
             (if flagVal none (k + 2) = true ∧ d = true then
               [(k + 3, SEvent.frame w h)]
              else [])) ++ evs, k2, ?_, ?_, ?_⟩
      · rw [List.cons_append,
          runLoop_cons_frame wid none t w h d _ k fc lastT acc rfl rfl, h1]
        simp [List.append_assoc]
      · rw [List.cons_append,
          runLoop_cons_frame wid none t w h d _ k fc lastT acc rfl rfl, h2]
        simp [List.append_assoc]
      · intro p hp
        rcases List.mem_append.1 hp with hp1 | hp1
        · rcases List.mem_append.1 hp1 with hp2 | hp2
          · rcases hsw : (statsStep ⟨fc, lastT⟩ t w h).2 with _ | s
            · rw [hsw] at hp2
              simp at hp2
            · rw [hsw] at hp2
              simp only [List.mem_singleton] at hp2
              subst hp2
              exact Or.inl ⟨s, rfl⟩
          · split at hp2
            · simp only [List.mem_singleton] at hp2
              subst hp2
              exact Or.inr ⟨w, h, rfl⟩
            · simp at hp2
        · exact h3 p hp1

/-- A run on a source that constructs and opens, with the flag never
cleared, is the loop's outcome over the connect and decode logs, with
Ended appended when the loop terminates. -/
theorem videoRun_open (wid : ℕ) (reads : List ReadResult) (t0 : ℚ) :
    videoRun wid ⟨true, true, reads⟩ t0 none =
      ⟨if (runLoop wid none reads 1 0 t0
            [(0, SEvent.log s!"[System] Worker({wid}) Connecting..."),
             (1, SEvent.log s!"[System] Worker({wid}) Decoding...")]).2.2 then
          (runLoop wid none reads 1 0 t0
            [(0, SEvent.log s!"[System] Worker({wid}) Connecting..."),
             (1, SEvent.log s!"[System] Worker({wid}) Decoding...")]).1 ++
            [((runLoop wid none reads 1 0 t0
                [(0, SEvent.log s!"[System] Worker({wid}) Connecting..."),
                 (1, SEvent.log s!"[System] Worker({wid}) Decoding...")]).2.1,
              SEvent.ended)]
        else
          (runLoop wid none reads 1 0 t0
            [(0, SEvent.log s!"[System] Worker({wid}) Connecting..."),
             (1, SEvent.log s!"[System] Worker({wid}) Decoding...")]).1,
       (runLoop wid none reads 1 0 t0
          [(0, SEvent.log s!"[System] Worker({wid}) Connecting..."),
           (1, SEvent.log s!"[System] Worker({wid}) Decoding...")]).2.2,
       (runLoop wid none reads 1 0 t0
          [(0, SEvent.log s!"[System] Worker({wid}) Connecting..."),
           (1, SEvent.log s!"[System] Worker({wid}) Decoding...")]).2.2⟩ :=
  rfl

/-- C2 (amended): for every session still desired to run, a read failure
after a successful connect — whether on the first read or after any
number of successfully read frames — is terminal: the worker emits the
EOF log, between connect and EOF emits only stats and frame events (in
particular no retry log), never consumes whatever reads would still be
available after the failure, releases the source, and the run completes
with Ended as the final event — there is no retry, no backoff, and no
reopen. -/
theorem c2_read_failure_terminal :
    ∀ (wid : ℕ) (t0 : ℚ) (pre rest : List ReadResult),
      pre.all isFrameRead = true →
      videoRun wid ⟨true, true, pre ++ ReadResult.eof :: rest⟩ t0 none =
        videoRun wid ⟨true, true, pre ++ [ReadResult.eof]⟩ t0 none ∧
      ∃ (evs : List (ℕ × SEvent)) (k2 : ℕ),
        (videoRun wid ⟨true, true, pre ++ ReadResult.eof :: rest⟩ t0 none).events =
          [(0, SEvent.log s!"[System] Worker({wid}) Connecting..."),
           (1, SEvent.log s!"[System] Worker({wid}) Decoding...")] ++ evs ++
          [(k2, SEvent.log s!"[Warn] Worker({wid}) EOF."), (k2, SEvent.ended)] ∧
        (∀ p ∈ evs, (∃ s, p.2 = SEvent.stats s) ∨ ∃ pw ph, p.2 = SEvent.frame pw ph) ∧
        (videoRun wid ⟨true, true, pre ++ ReadResult.eof :: rest⟩ t0 none).released = true ∧
        (videoRun wid ⟨true, true, pre ++ ReadResult.eof :: rest⟩ t0 none).completed = true := by
  intro wid t0 pre rest hall
  obtain ⟨evs, k2, h1, h2, h3⟩ :=
    runLoop_frames_then_eof wid pre hall rest 1 0 t0
      [(0, SEvent.log s!"[System] Worker({wid}) Connecting..."),
       (1, SEvent.log s!"[System] Worker({wid}) Decoding...")]
  constructor
  · rw [videoRun_open wid (pre ++ ReadResult.eof :: rest) t0,
      videoRun_open wid (pre ++ [ReadResult.eof]) t0, h1, h2]
  · refine ⟨evs, k2, ?_, h3, ?_, ?_⟩
    · rw [videoRun_open wid (pre ++ ReadResult.eof :: rest) t0, h1]
      simp [List.append_assoc]
    · rw [videoRun_open wid (pre ++ ReadResult.eof :: rest) t0, h1]
    · rw [videoRun_open wid (pre ++ ReadResult.eof :: rest) t0, h1]

/-- C2 witness: the amended theorem applied to a session that reads one
frame successfully, then hits the read failure with another frame still
pending. -/
theorem c2_witness :
    ([ReadResult.frame 1 320 240 true].all isFrameRead = true) ∧
    videoRun 6 ⟨true, true,
        [ReadResult.frame 1 320 240 true] ++
          ReadResult.eof :: [ReadResult.frame 2 64 48 true]⟩ 0 none =
      videoRun 6 ⟨true, true,
        [ReadResult.frame 1 320 240 true] ++ [ReadResult.eof]⟩ 0 none :=
  ⟨by decide,
    (c2_read_failure_terminal 6 0 [ReadResult.frame 1 320 240 true]
      [ReadResult.frame 2 64 48 true] (by decide)).1⟩

/-- C6: whenever any of the four dimensions is zero, the placement is the
zero-area rectangle, produced by the `isEmpty` guard before any ratio is
computed. -/
theorem c6_fit_degenerate :
    ∀ imgW imgH vW vH : ℤ,
      imgW = 0 ∨ imgH = 0 ∨ vW = 0 ∨ vH = 0 →
      calculateAspectRatioRect imgW imgH vW vH = ⟨0, 0, 0, 0⟩ ∧
      (calculateAspectRatioRect imgW imgH vW vH).width *
        (calculateAspectRatioRect imgW imgH vW vH).height = 0 := by
  intro imgW imgH vW vH h
  have hle : imgW ≤ 0 ∨ imgH ≤ 0 ∨ vW ≤ 0 ∨ vH ≤ 0 := by
    rcases h with h | h | h | h <;> simp [h]
  have heq : calculateAspectRatioRect imgW imgH vW vH = ⟨0, 0, 0, 0⟩ := by
    unfold calculateAspectRatioRect
    rw [if_pos hle]
  exact ⟨heq, by rw [heq]; decide⟩

/-- C6 witness: the degenerate case `fit(0, 1080, 100, 100)`. -/
theorem c6_witness :
    ((0 : ℤ) = 0 ∨ (1080 : ℤ) = 0 ∨ (100 : ℤ) = 0 ∨ (100 : ℤ) = 0) ∧
    calculateAspectRatioRect 0 1080 100 100 = ⟨0, 0, 0, 0⟩ ∧
    (calculateAspectRatioRect 0 1080 100 100).width *
      (calculateAspectRatioRect 0 1080 100 100).height = 0 :=
  ⟨Or.inl rfl, (c6_fit_degenerate 0 1080 100 100 (Or.inl rfl)).1,
    (c6_fit_degenerate 0 1080 100 100 (Or.inl rfl)).2⟩

/-- C5: for positive dimensions the placement rectangle lies inside the
viewport, is centred up to the floor rounding of the halved margin, fills
the viewport in one dimension while the other is the floor of the
aspect-preserving scale, and `fit(1920,1080,100,100)` is
`{x:0, y:22, width:100, height:56}`. -/
theorem c5_fit :
    (∀ imgW imgH vW vH : ℤ, 0 < imgW → 0 < imgH → 0 < vW → 0 < vH →
      ∃ r : PyRect, calculateAspectRatioRect imgW imgH vW vH = r ∧
        0 ≤ r.x ∧ 0 ≤ r.y ∧ 0 ≤ r.width ∧ 0 ≤ r.height ∧
        r.x + r.width ≤ vW ∧ r.y + r.height ≤ vH ∧
        vW - r.width - 1 ≤ 2 * r.x ∧ 2 * r.x ≤ vW - r.width ∧
        vH - r.height - 1 ≤ 2 * r.y ∧ 2 * r.y ≤ vH - r.height ∧
        ((r.width = vW ∧ r.height = ⌊((vW * imgH : ℤ) : ℚ) / ((imgW : ℤ) : ℚ)⌋) ∨
         (r.height = vH ∧ r.width = ⌊((vH * imgW : ℤ) : ℚ) / ((imgH : ℤ) : ℚ)⌋))) ∧
    calculateAspectRatioRect 1920 1080 100 100 = ⟨0, 22, 100, 56⟩ := by
  constructor
  · intro imgW imgH vW vH hiw hih hvw hvh
    have hguard : ¬(imgW ≤ 0 ∨ imgH ≤ 0 ∨ vW ≤ 0 ∨ vH ≤ 0) := by
      push_neg
      exact ⟨hiw, hih, hvw, hvh⟩
    have hiwQ : (0 : ℚ) < (imgW : ℚ) := by exact_mod_cast hiw
    have hihQ : (0 : ℚ) < (imgH : ℚ) := by exact_mod_cast hih
    have hvwQ : (0 : ℚ) < (vW : ℚ) := by exact_mod_cast hvw
    have hvhQ : (0 : ℚ) < (vH : ℚ) := by exact_mod_cast hvh
    by_cases hratio : (imgW : ℚ) / (imgH : ℚ) < (vW : ℚ) / (vH : ℚ)
    · -- widget relatively wider: full height, scaled width
      have hrect : calculateAspectRatioRect imgW imgH vW vH =
          ⟨⌊((vW - ⌊(vH : ℚ) * ((imgW : ℚ) / (imgH : ℚ))⌋ : ℤ) : ℚ) / 2⌋,
           ⌊((vH - vH : ℤ) : ℚ) / 2⌋,
           ⌊(vH : ℚ) * ((imgW : ℚ) / (imgH : ℚ))⌋, vH⟩ := by
        unfold calculateAspectRatioRect
        rw [if_neg hguard]
        simp only [if_pos hratio]
      set nw : ℤ := ⌊(vH : ℚ) * ((imgW : ℚ) / (imgH : ℚ))⌋ with hnwdef
      have hmul : (vH : ℚ) * ((imgW : ℚ) / (imgH : ℚ)) =
          ((vH * imgW : ℤ) : ℚ) / ((imgH : ℤ) : ℚ) := by
        push_cast
        ring
      have hnw0 : 0 ≤ nw := Int.floor_nonneg.2 (by positivity)
      have hnwlt : nw < vW := by
        apply Int.floor_lt.2
        rw [hmul, div_lt_iff hihQ]
        have hcross : (imgW : ℚ) * (vH : ℚ) < (vW : ℚ) * (imgH : ℚ) :=
          (div_lt_div_iff hihQ hvhQ).1 hratio
        push_cast
        nlinarith
      set x : ℤ := ⌊((vW - nw : ℤ) : ℚ) / 2⌋ with hxdef
      have hx2le : 2 * x ≤ vW - nw := by
        have h1 : (x : ℚ) ≤ ((vW - nw : ℤ) : ℚ) / 2 := Int.floor_le _
        have h2 : ((2 * x : ℤ) : ℚ) ≤ ((vW - nw : ℤ) : ℚ) := by
          push_cast at h1 ⊢
          linarith
        exact_mod_cast h2
      have hx2ge : vW - nw - 1 ≤ 2 * x := by
        have h1 : ((vW - nw : ℤ) : ℚ) / 2 < x + 1 := Int.lt_floor_add_one _
        have h2 : ((vW - nw : ℤ) : ℚ) < ((2 * x + 2 : ℤ) : ℚ) := by
          push_cast at h1 ⊢
          linarith
        have h3 : vW - nw < 2 * x + 2 := by exact_mod_cast h2
        omega
      have hx0 : 0 ≤ x := Int.floor_nonneg.2 (by
        have : (0 : ℚ) ≤ ((vW - nw : ℤ) : ℚ) := by
          have : (0 : ℤ) ≤ vW - nw := by omega
          exact_mod_cast this
        positivity)
      have hy : (⌊((vH - vH : ℤ) : ℚ) / 2⌋ : ℤ) = 0 := by
        norm_num
      refine ⟨_, hrect, ?_⟩
      dsimp only
      rw [hy]
      refine ⟨hx0, le_refl 0, hnw0, le_of_lt hvh, by omega, by omega,
        hx2ge, hx2le, by omega, by omega, Or.inr ⟨rfl, ?_⟩⟩
      rw [hnwdef, hmul]
    · -- widget relatively taller or equal: full width, scaled height
      have hrect : calculateAspectRatioRect imgW imgH vW vH =
          ⟨⌊((vW - vW : ℤ) : ℚ) / 2⌋,
           ⌊((vH - ⌊(vW : ℚ) / ((imgW : ℚ) / (imgH : ℚ))⌋ : ℤ) : ℚ) / 2⌋,
           vW, ⌊(vW : ℚ) / ((imgW : ℚ) / (imgH : ℚ))⌋⟩ := by
        unfold calculateAspectRatioRect
        rw [if_neg hguard]
        simp only [if_neg hratio]
      have hdiv : (vW : ℚ) / ((imgW : ℚ) / (imgH : ℚ)) =
          ((vW * imgH : ℤ) : ℚ) / ((imgW : ℤ) : ℚ) := by
        rw [div_div_eq_mul_div]
        push_cast
        ring_nf
      set nh : ℤ := ⌊(vW : ℚ) / ((imgW : ℚ) / (imgH : ℚ))⌋ with hnhdef
      have hnh0 : 0 ≤ nh := Int.floor_nonneg.2 (by
        rw [hdiv]
        positivity)
      have hnhle : nh ≤ vH := by
        have hcross : (vW : ℚ) * (imgH : ℚ) ≤ (imgW : ℚ) * (vH : ℚ) :=
          (div_le_div_iff hvhQ hihQ).1 (not_lt.1 hratio)
        have hle : (vW : ℚ) / ((imgW : ℚ) / (imgH : ℚ)) ≤ (vH : ℚ) := by
          rw [hdiv, div_le_iff hiwQ]
          push_cast
          nlinarith
        calc nh ≤ ⌊(vH : ℚ)⌋ := Int.floor_le_floor hle
          _ = vH := Int.floor_intCast vH
      set y : ℤ := ⌊((vH - nh : ℤ) : ℚ) / 2⌋ with hydef
      have hy2le : 2 * y ≤ vH - nh := by
        have h1 : (y : ℚ) ≤ ((vH - nh : ℤ) : ℚ) / 2 := Int.floor_le _
        have h2 : ((2 * y : ℤ) : ℚ) ≤ ((vH - nh : ℤ) : ℚ) := by
          push_cast at h1 ⊢
          linarith
        exact_mod_cast h2
      have hy2ge : vH - nh - 1 ≤ 2 * y := by
        have h1 : ((vH - nh : ℤ) : ℚ) / 2 < y + 1 := Int.lt_floor_add_one _
        have h2 : ((vH - nh : ℤ) : ℚ) < ((2 * y + 2 : ℤ) : ℚ) := by
          push_cast at h1 ⊢
          linarith
        have h3 : vH - nh < 2 * y + 2 := by exact_mod_cast h2
        omega
      have hy0 : 0 ≤ y := Int.floor_nonneg.2 (by
        have : (0 : ℚ) ≤ ((vH - nh : ℤ) : ℚ) := by
          have : (0 : ℤ) ≤ vH - nh := by omega
          exact_mod_cast this
        positivity)
      have hx : (⌊((vW - vW : ℤ) : ℚ) / 2⌋ : ℤ) = 0 := by
        norm_num
      refine ⟨_, hrect, ?_⟩
      dsimp only
      rw [hx]
      refine ⟨le_refl 0, hy0, le_of_lt hvw, hnh0, by omega, by omega,
        by omega, by omega, hy2ge, hy2le, Or.inl ⟨rfl, ?_⟩⟩
      rw [hnhdef, hdiv]
  · with_unfolding_all decide

/-- C5 witness: the positivity hypotheses and the containment conclusion
at the concrete 16:9-into-square instance. -/
theorem c5_witness :
    ((0 : ℤ) < 1920 ∧ (0 : ℤ) < 1080 ∧ (0 : ℤ) < 100) ∧
    (calculateAspectRatioRect 1920 1080 100 100).x +
      (calculateAspectRatioRect 1920 1080 100 100).width ≤ 100 := by
  refine ⟨by decide, ?_⟩
  obtain ⟨r, hr, _, _, _, _, hxw, _⟩ :=
    c5_fit.1 1920 1080 100 100 (by decide) (by decide) (by decide) (by decide)
  rw [hr]
  exact hxw

/-- C4: on a successfully read frame, if at least one second elapsed
since the window started, exactly one stats text is produced — the
resolution together with frames-in-window over elapsed seconds, rendered
to one decimal — and both the frame counter and the window start are
reset; if less than one second elapsed, no stats text is produced and the
window only counts the frame. -/
theorem c4_stats_window :
    ∀ (st : StatsWindow) (t : ℚ) (w h : ℕ),
      (1 ≤ t - st.lastTime →
        statsStep st t w h =
          (⟨0, t⟩,
           some (statsText w h (((st.frameCounter + 1 : ℕ) : ℚ) / (t - st.lastTime))))) ∧
      (t - st.lastTime < 1 →
        statsStep st t w h = (⟨st.frameCounter + 1, st.lastTime⟩, none)) := by
  intro st t w h
  constructor
  · intro hge
    unfold statsStep
    rw [if_pos hge]
  · intro hlt
    unfold statsStep
    rw [if_neg (not_le.2 hlt)]

/-- C4 witness: a window of 25 frames closing after exactly one second
emits the 25.0 fps stats text and resets; a half-second-old window stays
silent. -/
theorem c4_witness :
    (1 ≤ (1 : ℚ) - (0 : ℚ)) ∧
    statsStep ⟨24, 0⟩ 1 1920 1080 =
      (⟨0, 1⟩, some (statsText 1920 1080 (((24 + 1 : ℕ) : ℚ) / (1 - 0)))) ∧
    ((1 : ℚ) / 2 - (0 : ℚ) < 1) ∧
    statsStep ⟨3, 0⟩ (1 / 2) 640 480 = (⟨3 + 1, 0⟩, none) :=
  ⟨by norm_num, (c4_stats_window ⟨24, 0⟩ 1 1920 1080).1 (by norm_num),
   by norm_num, (c4_stats_window ⟨3, 0⟩ (1 / 2) 640 480).2 (by norm_num)⟩

/-- C3: abandoning the active worker leaves its frame and stats signals
disconnected, so in the emission-time delivery model no Frame or Stats
event it later emits reaches the renderer; and the start-toggle action
trace is exactly the button text plus the abandon actions of the old
worker followed by the new-session actions — the prefix (which contains
the old worker's stop and both unsubscriptions) holds no new-session
action and the suffix holds no detach action, so every stop/unsubscribe
of the old worker strictly precedes every construct/subscribe/start of
the new one. -/
theorem c3_handoff :
    (∀ w : WorkerConn, w.frameConnected = true →
      (abandonWorkerConn w).frameConnected = false ∧
      (abandonWorkerConn w).statsConnected = false ∧
      (∀ e : SEvent, isFrameOrStats e = true →
        rendererDelivers (abandonWorkerConn w) e = false)) ∧
    (∀ a b : ℕ,
      onStreamToggleStartTrace a b =
        ([MgrAction.setStopButtonText] ++ abandonTrace a) ++ startNewStreamTrace b ∧
      MgrAction.stopWorker a ∈ abandonTrace a ∧
      MgrAction.disconnectFrameSignal a ∈ abandonTrace a ∧
      MgrAction.disconnectStatsSignal a ∈ abandonTrace a ∧
      (∀ act ∈ [MgrAction.setStopButtonText] ++ abandonTrace a,
        isNewSessionAction b act = false) ∧
      (∀ act ∈ startNewStreamTrace b, isDetachAction a act = false)) := by
  constructor
  · intro w hw
    have hkey : (abandonWorkerConn w).frameConnected = false ∧
        (abandonWorkerConn w).statsConnected = false := by
      cases hs : w.statsConnected <;>
        simp [abandonWorkerConn, signalDisconnectAll, hw, hs]
    refine ⟨hkey.1, hkey.2, fun e he => ?_⟩
    cases e with
    | frame w h => simp [rendererDelivers, hkey.1]
    | stats s => simp [rendererDelivers, hkey.2]
    | log s => simp [isFrameOrStats] at he
    | ended => simp [isFrameOrStats] at he
  · intro a b
    refine ⟨by simp [onStreamToggleStartTrace], by simp [abandonTrace],
      by simp [abandonTrace], by simp [abandonTrace], ?_, ?_⟩
    · intro act hact
      fin_cases hact <;> rfl
    · intro act hact
      fin_cases hact <;> rfl

/-- C3 witness: the handoff theorem applied to a freshly connected worker
and a concrete pair of trace actions. -/
theorem c3_witness :
    (startNewStreamConn.frameConnected = true) ∧
    rendererDelivers (abandonWorkerConn startNewStreamConn) (SEvent.frame 640 480) = false ∧
    isNewSessionAction 2 (MgrAction.stopWorker 1) = false ∧
    isDetachAction 1 (MgrAction.startWorker 2) = false :=
  ⟨rfl, (c3_handoff.1 startNewStreamConn rfl).2.2 (SEvent.frame 640 480) rfl,
   (c3_handoff.2 1 2).2.2.2.2.1 (MgrAction.stopWorker 1) (by simp [abandonTrace]),
   (c3_handoff.2 1 2).2.2.2.2.2 (MgrAction.startWorker 2) (by simp [startNewStreamTrace])⟩

/-- C10: abandoning an active worker disconnects exactly the frame and
stats signals: the log connection survives, so every Log event the
detached worker still emits is delivered to the log view. -/
theorem c10_log_preserved :
    ∀ w : WorkerConn, w.frameConnected = true → w.logConnected = true →
      (abandonWorkerConn w).frameConnected = false ∧
      (abandonWorkerConn w).statsConnected = false ∧
      (abandonWorkerConn w).logConnected = true ∧
      (∀ s : String, logDelivers (abandonWorkerConn w) (SEvent.log s) = true) := by
  intro w hf hl
  cases hs : w.statsConnected <;>
    simp [abandonWorkerConn, signalDisconnectAll, hf, hs, hl, logDelivers]

/-- C10 witness: a fully connected worker keeps its log connection across
abandonment and a concrete Log event is still delivered. -/
theorem c10_witness :
    (startNewStreamConn.frameConnected = true ∧ startNewStreamConn.logConnected = true) ∧
    (abandonWorkerConn startNewStreamConn).logConnected = true ∧
    logDelivers (abandonWorkerConn startNewStreamConn) (SEvent.log "x") = true :=
  ⟨⟨rfl, rfl⟩, (c10_log_preserved startNewStreamConn rfl rfl).2.2.1,
   (c10_log_preserved startNewStreamConn rfl rfl).2.2.2 "x"⟩

/-- Flag reads under `stopAfter = some n` read true exactly below `n`. -/
theorem flagVal_some_true {n m : ℕ} : flagVal (some n) m = true ↔ m < n := by
  simp [flagVal]

/-- Invariant of the read loop: with the cancellation flag set after `n`
flag reads, every Frame or Stats event in the produced trace was emitted
while every completed flag read had still returned true, i.e. its
flag-read tag is at most `n`. -/
theorem runLoop_frame_stats_flag_bound (wid n : ℕ) (reads : List ReadResult) :
    ∀ (k fc : ℕ) (lastT : ℚ) (acc : List (ℕ × SEvent)),
      (∀ p ∈ acc, isFrameOrStats p.2 = true → p.1 ≤ n) →
      ∀ p ∈ (runLoop wid (some n) reads k fc lastT acc).1,
        isFrameOrStats p.2 = true → p.1 ≤ n := by
  induction reads with
  | nil =>
    intro k fc lastT acc hacc p hp
    unfold runLoop at hp
    split at hp <;> exact hacc p hp
  | cons r rest ih =>
    intro k fc lastT acc hacc p hp hfs
    unfold runLoop at hp
    by_cases hk : flagVal (some n) k = false
    · rw [if_pos hk] at hp
      exact hacc p hp hfs
    · rw [if_neg hk] at hp
      cases r with
      | exn msg =>
        dsimp only at hp
        split at hp
        · rcases List.mem_append.1 hp with h | h
          · exact hacc p h hfs
          · simp only [List.mem_singleton] at h
            subst h
            simp [isFrameOrStats] at hfs
        · exact hacc p hp hfs
      | eof =>
        dsimp only at hp
        split at hp
        · exact hacc p hp hfs
        · rcases List.mem_append.1 hp with h | h
          · exact hacc p h hfs
          · simp only [List.mem_singleton] at h
            subst h
            simp [isFrameOrStats] at hfs
      | frame t w h decodeOk =>
        dsimp only at hp
        by_cases hk1 : flagVal (some n) (k + 1) = false
        · rw [if_pos hk1] at hp
          exact hacc p hp hfs
        · rw [if_neg hk1] at hp
          have hk1n : k + 1 < n := by
            rcases Bool.eq_false_or_eq_true (flagVal (some n) (k + 1)) with hb | hb
            · exact flagVal_some_true.1 hb
            · exact absurd hb hk1
          refine ih (k + 3) _ _ _ ?_ p hp hfs
          intro q hq hq'
          by_cases hk2 : flagVal (some n) (k + 2) = true ∧ decodeOk = true
          · rw [if_pos hk2] at hq
            rcases List.mem_append.1 hq with hq1 | hq1
            · cases hsw : (statsStep ⟨fc, lastT⟩ t w h).2 with
              | none =>
                rw [hsw] at hq1
                exact hacc q hq1 hq'
              | some s =>
                rw [hsw] at hq1
                rcases List.mem_append.1 hq1 with hq2 | hq2
                · exact hacc q hq2 hq'
                · simp only [List.mem_singleton] at hq2
                  subst hq2
                  omega
            · simp only [List.mem_singleton] at hq1
              subst hq1
              have := flagVal_some_true.1 hk2.1
              omega
          · rw [if_neg hk2] at hq
            cases hsw : (statsStep ⟨fc, lastT⟩ t w h).2 with
            | none =>
              rw [hsw] at hq
              exact hacc q hq hq'
            | some s =>
              rw [hsw] at hq
              rcases List.mem_append.1 hq with hq2 | hq2
              · exact hacc q hq2 hq'
              · simp only [List.mem_singleton] at hq2
                subst hq2
                omega

/-- C7: once the cancellation flag is set (false from the `n`-th flag
read onward) the run emits no Frame or Stats event past any false
observation — every such event carries a flag-read tag at most `n`; a
worker stopped before its first flag check terminates, emits Ended, and
emits neither Frame nor Stats; and `stop()` just clears `running`, so it
is idempotent and safe on a never-started worker. -/
theorem c7_cancellation :
    (∀ (wid : ℕ) (src : VideoSource) (t0 : ℚ) (n : ℕ),
      ∀ p ∈ (videoRun wid src t0 (some n)).events,
        isFrameOrStats p.2 = true → p.1 ≤ n) ∧
    (∀ (wid : ℕ) (src : VideoSource) (t0 : ℚ),
      ((videoRun wid src t0 (some 0)).events.all
        (fun p => !isFrameOrStats p.2)) = true ∧
      ((videoRun wid src t0 (some 0)).events.any
        (fun p => isEndedEvent p.2)) = true ∧
      (videoRun wid src t0 (some 0)).completed = true) ∧
    (∀ w : VideoStreamWorkerState,
      workerStop (workerStop w) = workerStop w ∧ (workerStop w).running = false) ∧
    (∀ url : String, workerStop (workerInit url) = ⟨url, false⟩) := by
  refine ⟨?_, ?_, ?_, ?_⟩
  · intro wid src t0 n p hp hfs
    rcases src with ⟨ctorOk, openOk, reads⟩
    unfold videoRun at hp
    cases ctorOk with
    | false =>
      rw [if_pos rfl] at hp
      dsimp only at hp
      rcases List.mem_append.1 hp with h | h
      · split at h
        · simp only [List.mem_append, List.mem_singleton] at h
          rcases h with h | h <;> (subst h; simp [isFrameOrStats] at hfs)
        · simp only [List.mem_singleton] at h
          subst h
          simp [isFrameOrStats] at hfs
      · simp only [List.mem_singleton] at h
        subst h
        simp [isFrameOrStats] at hfs
    | true =>
      rw [if_neg (by simp)] at hp
      by_cases h0 : flagVal (some n) 0 = false
      · rw [if_pos h0] at hp
        dsimp only at hp
        simp only [List.mem_append, List.mem_singleton] at hp
        rcases hp with h | h <;> (subst h; simp [isFrameOrStats] at hfs)
      · rw [if_neg h0] at hp
        cases openOk with
        | false =>
          rw [if_pos rfl] at hp
          dsimp only at hp
          simp only [List.mem_append, List.mem_cons, List.mem_singleton,
            List.not_mem_nil, or_false] at hp
          rcases hp with h | h | h <;> (subst h; simp [isFrameOrStats] at hfs)
        | true =>
          rw [if_neg (by simp)] at hp
          dsimp only at hp
          have hacc1 : ∀ q ∈ [(0, SEvent.log s!"[System] Worker({wid}) Connecting...")] ++
              [(1, SEvent.log s!"[System] Worker({wid}) Decoding...")],
              isFrameOrStats q.2 = true → q.1 ≤ n := by
            intro q hq hq'
            simp only [List.mem_append, List.mem_singleton] at hq
            rcases hq with h | h <;> (subst h; simp [isFrameOrStats] at hq')
          split at hp
          · rcases List.mem_append.1 hp with h | h
            · exact runLoop_frame_stats_flag_bound wid n reads 1 0 t0 _ hacc1 p h hfs
            · simp only [List.mem_singleton] at h
              subst h
              simp [isFrameOrStats] at hfs
          · exact runLoop_frame_stats_flag_bound wid n reads 1 0 t0 _ hacc1 p hp hfs
  · intro wid src t0
    rcases src with ⟨ctorOk, openOk, reads⟩
    cases ctorOk with
    | false =>
      have he : videoRun wid ⟨false, openOk, reads⟩ t0 (some 0) =
          ⟨[(0, .log s!"[System] Worker({wid}) Connecting..."), (1, .ended)],
           false, true⟩ := rfl
      rw [he]
      exact ⟨by simp [isFrameOrStats], by simp [isEndedEvent], rfl⟩
    | true =>
      have he : videoRun wid ⟨true, openOk, reads⟩ t0 (some 0) =
          ⟨[(0, .log s!"[System] Worker({wid}) Connecting..."), (1, .ended)],
           true, true⟩ := rfl
      rw [he]
      exact ⟨by simp [isFrameOrStats], by simp [isEndedEvent], rfl⟩
  · intro w
    constructor <;> rfl
  · intro url
    rfl

set_option maxRecDepth 4000 in
/-- C7 witness: a concrete run with the flag cleared only after nine
reads contains a Frame event, and the theorem bounds its flag-read tag. -/
theorem c7_witness :
    ((4, SEvent.frame 640 480) ∈
      (videoRun 7 ⟨true, true, [.frame 2 640 480 true]⟩ 0 (some 9)).events) ∧
    (isFrameOrStats (SEvent.frame 640 480) = true) ∧ ((4 : ℕ) ≤ 9) := by
  have hev : (videoRun 7 ⟨true, true, [.frame 2 640 480 true]⟩ 0 (some 9)).events =
      [(0, .log "[System] Worker(7) Connecting..."),
       (1, .log "[System] Worker(7) Decoding..."),
       (3, .stats "RES: 640x480 | FPS: 0.5"), (4, .frame 640 480)] := by
    with_unfolding_all decide
  have hmem : (4, SEvent.frame 640 480) ∈
      (videoRun 7 ⟨true, true, [.frame 2 640 480 true]⟩ 0 (some 9)).events := by
    rw [hev]
    simp
  exact ⟨hmem, rfl,
    c7_cancellation.1 7 ⟨true, true, [.frame 2 640 480 true]⟩ 0 9
      (4, SEvent.frame 640 480) hmem rfl⟩

/-- C9: whenever the run returns and the capture constructor had
produced a handle, the handle has been released — the `finally` block
covers the early-cancellation return, the failed-open return, EOF,
cancellation during the loop, and exceptions escaping the read. -/
theorem c9_release :
    ∀ (wid : ℕ) (src : VideoSource) (t0 : ℚ) (sa : Option ℕ),
      (videoRun wid src t0 sa).completed = true → src.ctorOk = true →
      (videoRun wid src t0 sa).released = true := by
  intro wid src t0 sa hcomp hctor
  rcases src with ⟨ctorOk, openOk, reads⟩
  dsimp only at hctor
  subst hctor
  unfold videoRun at hcomp ⊢
  by_cases h0 : flagVal sa 0 = false <;> cases openOk <;> simp_all

/-- C9 witness: the EOF run creates a handle, completes, and has released
it. -/
theorem c9_witness :
    ((videoRun 3 ⟨true, true, [.eof]⟩ 0 none).completed = true) ∧
    ((⟨true, true, [.eof]⟩ : VideoSource).ctorOk = true) ∧
    ((videoRun 3 ⟨true, true, [.eof]⟩ 0 none).released = true) :=
  ⟨by with_unfolding_all decide, rfl,
    c9_release 3 ⟨true, true, [.eof]⟩ 0 none (by with_unfolding_all decide) rfl⟩
